import Mathlib

/-!
Verification of the f1-race-replay session pipeline against its specification.

The development shallowly embeds the parts of the repository that the claims
touch:

* the position-ordering engine of `shared/telemetry/f1_data.py`
  (`sort_key_hybrid`, `PositionSmoothing`, `_apply_lap_anchor`).  That module
  is absent from the sources (only its unit tests in
  `tests/test_telemetry.py` and its callers are present), so these
  definitions are modelled from the spec, as their doc comments record;
* the two-tier cache of `backend/app/cache/session_cache.py`
  (`get_cached_telemetry`, `_save_cache_async`, `clear_cache`);
* the per-client playback dispatcher and the late-joiner event sequence of
  `backend/app/websocket.py` (`handle_replay_websocket`).

Python floats are modelled as rationals (the claims under scrutiny are about
control flow and comparisons, not rounding), Python dicts as association
lists or functions, and Python `None` as `Option.none`.  Fallible operations
(the JSON parse of a disk cache file) return `Option`; the one uncaught
exception path of the cache layer — the unguarded directory creation on the
loader path — is modelled with `Except`.
-/

/-- Python `x or d` for an optional integer (`None` and `0` are falsy). -/
def pyOrNat (x : Option Nat) (d : Nat) : Nat :=
  match x with
  | none => d
  | some n => if n = 0 then d else n

/-- Python `x or d` for an optional string (`None` and `""` are falsy). -/
def pyOrStr (x : Option String) (d : String) : String :=
  match x with
  | none => d
  | some s => if s = "" then d else s

/-- Python `int(q)` on a float: truncation toward zero
(`int(-0.5) = 0`, `int(1.9) = 1`). -/
def pyInt (q : ℚ) : ℤ :=
  if 0 ≤ q then ⌊q⌋ else ⌈q⌉

/-- Stable insertion of one element into a list already ordered by `le`. -/
def insertLe {α : Type} (le : α → α → Prop) [DecidableRel le] (x : α) :
    List α → List α
  | [] => [x]
  | y :: ys => if le x y then x :: y :: ys else y :: insertLe le x ys

/-- Stable insertion sort by the decidable relation `le` (the shallow stand-in
for Python's stable `sorted`). -/
def sortLe {α : Type} (le : α → α → Prop) [DecidableRel le] (l : List α) :
    List α :=
  l.foldr (insertLe le) []

/-! ## Position engine, Tier A: the hybrid sort key

Modelled from the spec: `sort_key_hybrid` lives in
`shared/telemetry/f1_data.py`, which is not among the sources; only its unit
tests (`tests/test_telemetry.py`) and its callers are.  Spec section 4.2,
Tier A defines the key as the triple `(primary, secondary, tertiary)` with
`primary = pos_raw if pos_raw > 0 else 9999`,
`secondary = interval_smooth if finite else 9999`,
`tertiary = -race_progress if finite else 0.0`,
compared lexicographically, ascending. -/

/-- The per-driver raw inputs of the hybrid sort key.  `none` stands for a
missing / NaN value of the Python code. -/
structure DriverRaw where
  pos_raw : ℤ
  interval_smooth : Option ℚ
  race_progress : Option ℚ
deriving DecidableEq, Repr

/-- Modelled from the spec: `sort_key_hybrid` of `shared/telemetry/f1_data.py`
(absent from the sources).  Produces the `(primary, secondary, tertiary)`
triple of spec section 4.2, Tier A. -/
def sort_key_hybrid (d : DriverRaw) : ℚ × ℚ × ℚ :=
  ( if 0 < d.pos_raw then (d.pos_raw : ℚ) else 9999
  , match d.interval_smooth with
    | some q => q
    | none => 9999
  , match d.race_progress with
    | some p => -p
    | none => 0 )

/-- Strict lexicographic order on sort-key triples; `keyLt a b` means a driver
with key `a` sorts strictly before one with key `b`. -/
def keyLt (a b : ℚ × ℚ × ℚ) : Prop :=
  a.1 < b.1 ∨ (a.1 = b.1 ∧ (a.2.1 < b.2.1 ∨ (a.2.1 = b.2.1 ∧ a.2.2 < b.2.2)))

instance (a b : ℚ × ℚ × ℚ) : Decidable (keyLt a b) := by
  unfold keyLt; infer_instance

/-- Non-strict lexicographic comparison on sort-key triples, used for the
ascending Tier-A sort. -/
def keyLe (a b : ℚ × ℚ × ℚ) : Prop := keyLt a b ∨ a = b

instance (a b : ℚ × ℚ × ℚ) : Decidable (keyLe a b) := by
  unfold keyLe; infer_instance

/-- Ascending Tier-A ordering of a list of driver codes: stable sort by the
hybrid key of each driver, looked up in the frame data. -/
def tierAOrder (codes : List String) (data : String → DriverRaw) : List String :=
  sortLe (fun a b => keyLe (sort_key_hybrid (data a)) (sort_key_hybrid (data b))) codes

/-- The literal frame of spec section 8, scenario 1: HAM, VER, SAI with their
raw positions, smoothed intervals and race progress. -/
def scenarioOneFrame : String → DriverRaw := fun c =>
  if c = "HAM" then ⟨1, some (1/2), some 1000⟩
  else if c = "VER" then ⟨2, some (6/5), some 950⟩
  else ⟨3, some (21/10), some 900⟩

/-! ## Position engine, Tier B: temporal hysteresis

Modelled from the spec: the `PositionSmoothing` class of
`shared/telemetry/f1_data.py` (absent from the sources).  Spec section 4.2,
Tier B: the filter stores the last-accepted order and the timestamp at which
the current candidate order was first observed; a candidate differing from
the accepted order is committed only when the elapsed time since it was
first observed is at least `H`, with `H = 0.3` when the track status is one
of `"4"`, `"5"`, `"6"`, `"7"` and `H = 1.0` otherwise; until then the
accepted order is emitted unchanged. -/

/-- State of the Tier-B hysteresis filter: the last-accepted order, the
candidate currently under observation, and the time it was first observed. -/
structure PositionSmoothing where
  accepted : Option (List String)
  pending : Option (List String)
  pendingSince : ℚ
deriving DecidableEq, Repr

/-- The filter state before any frame has been processed. -/
def PositionSmoothing.init : PositionSmoothing := ⟨none, none, 0⟩

/-- The hysteresis window `H`: 0.3 s under safety car / red flag / virtual
safety car (track status `"4"`, `"5"`, `"6"`, `"7"`), 1.0 s otherwise. -/
def hysteresisH (status : String) : ℚ :=
  if status = "4" ∨ status = "5" ∨ status = "6" ∨ status = "7" then 3/10 else 1

/-- Modelled from the spec: `PositionSmoothing.apply` of
`shared/telemetry/f1_data.py` (absent from the sources).  Feeds one candidate
order, with the frame time and the current track status, through the
hysteresis filter; returns the emitted order and the next filter state. -/
def PositionSmoothing.apply (st : PositionSmoothing) (candidate : List String)
    (t : ℚ) (status : String) : List String × PositionSmoothing :=
  match st.accepted with
  | none => (candidate, ⟨some candidate, none, st.pendingSince⟩)
  | some acc =>
    if candidate = acc then (acc, ⟨some acc, none, st.pendingSince⟩)
    else
      let firstSeen := if st.pending = some candidate then st.pendingSince else t
      if hysteresisH status ≤ t - firstSeen then
        (candidate, ⟨some candidate, none, firstSeen⟩)
      else
        (acc, ⟨some acc, some candidate, firstSeen⟩)

/-! ## Position engine, Tier C: lap-boundary anchoring

Modelled from the spec: `_apply_lap_anchor` of `shared/telemetry/f1_data.py`
(absent from the sources).  Spec section 4.2, Tier C: each driver with a
known official position for their current lap is placed at that official
slot (1-indexed); collisions are resolved in favour of the lower official
number; non-anchored drivers keep their relative order, filling the
remaining slots in sequence. -/

/-- The official position anchoring a driver, if any: the lap-boundaries
entry for the driver's current lap. -/
def anchorOf (lap : String → Option Nat) (boundaries : String → Nat → Option Nat)
    (c : String) : Option Nat :=
  match lap c with
  | some l => boundaries c l
  | none => none

/-- Walk the slots `i, i+1, ...`: an anchored driver whose official slot is
due (≤ the current slot) is emitted first — anchors were pre-sorted by
official position, so the lower official number wins a collision — and the
remaining slots are filled from the non-anchored queue in order.  `fuel` is
the number of slots left to fill. -/
def fillSlots : Nat → Nat → List (String × Nat) → List String → List String
  | _, 0, _, _ => []
  | i, fuel + 1, anchors, rest =>
    match anchors with
    | (c, p) :: anchors' =>
      if p ≤ i then c :: fillSlots (i + 1) fuel anchors' rest
      else
        match rest with
        | r :: rest' => r :: fillSlots (i + 1) fuel anchors rest'
        | [] => c :: fillSlots (i + 1) fuel anchors' rest
    | [] =>
      match rest with
      | r :: rest' => r :: fillSlots (i + 1) fuel [] rest'
      | [] => []

/-- Modelled from the spec: `_apply_lap_anchor` of
`shared/telemetry/f1_data.py` (absent from the sources).  Overlays the known
official lap-start positions onto the sorted order. -/
def applyLapAnchor (sortedCodes : List String) (lap : String → Option Nat)
    (boundaries : String → Nat → Option Nat) : List String :=
  let anchors := sortedCodes.filterMap fun c =>
    (anchorOf lap boundaries c).map fun p => (c, p)
  let anchorsSorted := sortLe (fun a b : String × Nat => a.2 ≤ b.2) anchors
  let rest := sortedCodes.filter fun c => (anchorOf lap boundaries c).isNone
  fillSlots 1 sortedCodes.length anchorsSorted rest

/-! ## Cache layer: `backend/app/cache/session_cache.py`

The in-memory cache `_telemetry_cache` and the pending asynchronous disk
writes are association lists keyed by the cache key; the disk directory maps
a cache key to the content of `<key>_telemetry.json` — absent, present but
unparseable (`json.load` raises), or a parsed payload.  The payload type is
a parameter `α`. -/

/-- Content of a disk cache file: present but failing `json.load`, or a
payload that parses. -/
inductive DiskFile (α : Type) where
  | corrupt : DiskFile α
  | good : α → DiskFile α
deriving DecidableEq, Repr

/-- The cache state: the in-memory `_telemetry_cache` dict, the disk cache
directory, and the `_save_cache_async` tasks scheduled but not yet run. -/
structure CacheState (α : Type) where
  mem : List (String × α)
  disk : List (String × DiskFile α)
  pendingSaves : List (String × α)
deriving DecidableEq, Repr

/-- `_get_cache_key`: `f"{year}_{round_num}_{session_type}"`. -/
def cacheKey (year roundNum : Nat) (sessionType : String) : String :=
  toString year ++ "_" ++ toString roundNum ++ "_" ++ sessionType

/-- Remove every binding of `key` from an association list (the effect of
Python's `del d[key]` under the lookup semantics used here). -/
def eraseKey {α : Type} : List (String × α) → String → List (String × α)
  | [], _ => []
  | kv :: rest, key =>
    if kv.1 = key then eraseKey rest key else kv :: eraseKey rest key

/-- Overwrite the binding of `key` (Python `d[key] = v`). -/
def writeKey {α : Type} (l : List (String × α)) (key : String) (v : α) :
    List (String × α) :=
  (key, v) :: eraseKey l key

/-- Dict lookup (`key in d` / `d[key]`). -/
def lookupKey {α : Type} : List (String × α) → String → Option α
  | [], _ => none
  | kv :: rest, k => if k = kv.1 then some kv.2 else lookupKey rest k

/-- The in-memory tier: `_telemetry_cache[cache_key]` when present. -/
def memLookup {α : Type} (st : CacheState α) (key : String) : Option α :=
  lookupKey st.mem key

/-- The disk tier: the parsed payload when the file exists and
`json.load` succeeds, `none` otherwise (missing file, or the caught parse
failure). -/
def diskRead {α : Type} (st : CacheState α) (key : String) : Option α :=
  match lookupKey st.disk key with
  | some (DiskFile.good v) => some v
  | _ => none

/-- `get_cached_telemetry(year, round_num, session_type, loader_fn, refresh)`
(`session_cache.py`, lines 39-102).  Returns the payload, the state after the
call, and how many times `loader_fn` was invoked.  The four cascaded
re-checks mirror the source: memory, disk, then — under `_cache_lock` —
memory and disk again before computing.  This is the behaviour on the runs
where the unguarded `cache_file.parent.mkdir(parents=True, exist_ok=True)`
at line 98 succeeds; `get_cached_telemetry_run` below makes that fallible
step explicit. -/
def get_cached_telemetry {α : Type} (st : CacheState α)
    (loader : Nat → Nat → String → α) (year roundNum : Nat)
    (sessionType : String) (refresh : Bool) : α × CacheState α × Nat :=
  let key := cacheKey year roundNum sessionType
  match (if refresh then none else memLookup st key) with
  | some v => (v, st, 0)
  | none =>
    match (if refresh then none else diskRead st key) with
    | some v => (v, { st with mem := writeKey st.mem key v }, 0)
    | none =>
      match (if refresh then none else memLookup st key) with
      | some v => (v, st, 0)
      | none =>
        match (if refresh then none else diskRead st key) with
        | some v => (v, { st with mem := writeKey st.mem key v }, 0)
        | none =>
          let v := loader year roundNum sessionType
          (v, { st with
                  mem := writeKey st.mem key v
                  pendingSaves := (key, v) :: st.pendingSaves }, 1)

/-- `get_cached_telemetry` with the fallible directory creation of the loader
path made explicit: line 98 of `session_cache.py` runs
`cache_file.parent.mkdir(parents=True, exist_ok=True)` outside any `try`
block, after `loader_fn` has been awaited (line 95) and before the memory
store (line 101).  `mkdirOk` says whether that call succeeds; when it fails,
its `OSError` propagates out of `get_cached_telemetry` — the result is
`Except.error`, the loader has already run once, and neither the memory
entry nor a disk save is left behind.  The first component is the outcome,
then the state after the call and the loader-invocation count. -/
def get_cached_telemetry_run {α : Type} (st : CacheState α)
    (loader : Nat → Nat → String → α) (year roundNum : Nat)
    (sessionType : String) (refresh : Bool) (mkdirOk : Bool) :
    Except Unit α × CacheState α × Nat :=
  let key := cacheKey year roundNum sessionType
  match (if refresh then none else memLookup st key) with
  | some v => (Except.ok v, st, 0)
  | none =>
    match (if refresh then none else diskRead st key) with
    | some v => (Except.ok v, { st with mem := writeKey st.mem key v }, 0)
    | none =>
      match (if refresh then none else memLookup st key) with
      | some v => (Except.ok v, st, 0)
      | none =>
        match (if refresh then none else diskRead st key) with
        | some v => (Except.ok v, { st with mem := writeKey st.mem key v }, 0)
        | none =>
          let v := loader year roundNum sessionType
          if mkdirOk then
            (Except.ok v, { st with
                mem := writeKey st.mem key v
                pendingSaves := (key, v) :: st.pendingSaves }, 1)
          else (Except.error (), st, 1)

/-- `_save_cache_async` (`session_cache.py`, lines 105-112) finishing with
outcome `ok`: a successful write stores the serialized payload on disk; a
failure is caught and only logged, leaving the state as it was. -/
def save_cache_async {α : Type} (st : CacheState α) (key : String) (v : α)
    (ok : Bool) : CacheState α :=
  if ok then { st with disk := writeKey st.disk key (DiskFile.good v) } else st

/-- `clear_cache(year, round_num, session_type)` (`session_cache.py`, lines
115-134): with no year, clear the whole in-memory dict; otherwise delete the
single in-memory entry for the key built with Python's
`round_num or 0` and `session_type or "R"` defaults. -/
def clear_cache {α : Type} (st : CacheState α) (year : Option Nat)
    (roundNum : Option Nat) (sessionType : Option String) : CacheState α :=
  match year with
  | none => { st with mem := [] }
  | some y =>
    { st with mem := eraseKey st.mem (cacheKey y (pyOrNat roundNum 0) (pyOrStr sessionType "R")) }

/-! ## Client dispatcher: `backend/app/websocket.py`, lines 162-233

Per-client playback state machine.  One loop iteration receives at most one
control message (a 10 ms `receive_json` with timeout), then runs one tick:
advance while playing, send the current frame when it is new and in range,
clamp and pause at the end. -/

/-- `frame_index`, `playback_speed`, `is_playing`, `last_frame_sent`
(`websocket.py`, lines 163-166). -/
structure PlayerState where
  frame_index : ℚ
  playback_speed : ℚ
  is_playing : Bool
  last_frame_sent : ℤ
deriving DecidableEq, Repr

/-- The dispatcher state right after `loading_complete`
(`websocket.py`, lines 163-166). -/
def PlayerState.start : PlayerState := ⟨0, 1, false, -1⟩

/-- One parsed control message.  `other` covers unknown actions, which the
handler ignores. -/
inductive ControlMsg where
  | play : ℚ → ControlMsg
  | pause : ControlMsg
  | seek : ℚ → ControlMsg
  | other : ControlMsg
deriving DecidableEq, Repr

/-- Processing one control message (`websocket.py`, lines 175-185):
`play` sets the speed and starts playing, `pause` stops, `seek` moves
`frame_index` and resets `last_frame_sent` to −1, anything else is ignored. -/
def recvStep (s : PlayerState) : ControlMsg → PlayerState
  | ControlMsg.play speed => { s with is_playing := true, playback_speed := speed }
  | ControlMsg.pause => { s with is_playing := false }
  | ControlMsg.seek f => { s with frame_index := f, last_frame_sent := -1 }
  | ControlMsg.other => s

/-- One dispatch tick over `n` frames (`websocket.py`, lines 199-221):
advance `frame_index` by `speed * (1/60) * 25` while playing, compute
`current_frame = int(frame_index)`, send it when it differs from
`last_frame_sent` and lies in `[0, n)`, then clamp to the final index and
pause once `frame_index ≥ n`.  Returns the next state and the frame sent,
if any. -/
def tickStep (n : Nat) (s : PlayerState) : PlayerState × Option ℤ :=
  let fi := if s.is_playing then s.frame_index + s.playback_speed * (1/60) * 25
            else s.frame_index
  let current := pyInt fi
  let sent := if current ≠ s.last_frame_sent ∧ 0 ≤ current ∧ current < (n : ℤ)
              then some current else none
  let last := match sent with
              | some c => c
              | none => s.last_frame_sent
  if (n : ℚ) ≤ fi then
    ({ frame_index := (n : ℚ) - 1, playback_speed := s.playback_speed
     , is_playing := false, last_frame_sent := last }, sent)
  else
    ({ s with frame_index := fi, last_frame_sent := last }, sent)

/-- One full loop iteration: the optional control message received within the
timeout, then the tick. -/
def loopIter (n : Nat) (s : PlayerState) (m : Option ControlMsg) :
    PlayerState × Option ℤ :=
  tickStep n (match m with
              | some msg => recvStep s msg
              | none => s)

/-- The sent-frame computation that spec section 4.5 describes, with
`current = floor(frame_index)` — written from the spec's words, to be
compared with `tickStep`, whose `current = int(frame_index)` truncates
toward zero. -/
def tickSentFloorSpec (n : Nat) (s : PlayerState) : Option ℤ :=
  let fi := if s.is_playing then s.frame_index + s.playback_speed * (1/60) * 25
            else s.frame_index
  let current := ⌊fi⌋
  if current ≠ s.last_frame_sent ∧ 0 ≤ current ∧ current < (n : ℤ)
  then some current else none

/-! ## Event channel: the late-joiner sequence of `handle_replay_websocket`

`websocket.py`, lines 67-109: every client first gets a `loading_progress`
with the session's current progress; a client arriving when
`session.is_loaded` already holds then gets the catch-up
`loading_progress` (with `session.progress or 100`) and the
`loading_complete` carrying the metadata dict, before the playback loop
sends any binary frame. -/

/-- One message on the server-to-client channel. -/
inductive WsEvent where
  | loadingProgress : Nat → String → WsEvent
  | loadingComplete : List String → WsEvent
  | binaryFrame : ℤ → WsEvent
deriving DecidableEq, Repr

/-- The lifecycle fields of a `Session` that the late-joiner path reads. -/
structure SessionView where
  progress : Nat
  loading_status : Option String
deriving DecidableEq, Repr

/-- The keys of the `metadata` dict built for `loading_complete`
(`websocket.py`, lines 92-108), in source order. -/
def loadingCompleteMetadataKeys : List String :=
  ["year", "round", "session_type", "total_frames", "total_laps",
   "driver_colors", "driver_numbers", "driver_teams", "track_geometry",
   "track_statuses", "race_start_time", "error"]

/-- The channel traffic seen by a client that connects when
`session.is_loaded` is already true (`websocket.py`, lines 67-109 followed by
the playback loop): the initial progress message, the catch-up progress
message with `session.progress or 100`, the `loading_complete` with the
metadata keys, then whatever binary frames the playback loop sends. -/
def lateJoinerEvents (s : SessionView) (framesSent : List ℤ) : List WsEvent :=
  WsEvent.loadingProgress s.progress (pyOrStr s.loading_status "Loading...") ::
  WsEvent.loadingProgress (pyOrNat (some s.progress) 100)
    (pyOrStr s.loading_status "Ready for playback") ::
  WsEvent.loadingComplete loadingCompleteMetadataKeys ::
  framesSent.map WsEvent.binaryFrame

/-! ## Claim C1: the hybrid sort key -/

/-- The retired driver of spec section 8, scenario 2:
`pos_raw=0, interval_smooth=nil, race_progress=500`. -/
def retiredDriver : DriverRaw := ⟨0, none, some 500⟩

/-- C1 counterexample: the claim says a driver with `pos_raw = 0` sorts after
every driver with `pos_raw > 0`, but a running driver with `pos_raw = 10000`
has primary key 10000, which sorts after the retired sink key
`(9999, 9999, -500)`; the retired driver does not come last. -/
theorem sort_key_retired_sink_gap :
    0 < (10000 : ℤ) ∧
      ¬ keyLt (sort_key_hybrid ⟨10000, some (1/2), some 1000⟩)
          (sort_key_hybrid retiredDriver) := by
  constructor
  · norm_num
  · norm_num [sort_key_hybrid, keyLt, retiredDriver]

/-- C1 (amended): on the literal scenario-1 frame, the hybrid sort keys of
HAM, VER, SAI are `(1, 0.5, -1000)`, `(2, 1.2, -950)`, `(3, 2.1, -900)` and
the ascending lexicographic sort yields `[HAM, VER, SAI]`; and a driver with
`pos_raw = 0` sorts strictly after every driver whose `pos_raw` is positive
and below the 9999 sink. -/
theorem sort_key_hybrid_claim :
    sort_key_hybrid (scenarioOneFrame "HAM") = (1, 1/2, -1000)
    ∧ sort_key_hybrid (scenarioOneFrame "VER") = (2, 6/5, -950)
    ∧ sort_key_hybrid (scenarioOneFrame "SAI") = (3, 21/10, -900)
    ∧ tierAOrder ["VER", "SAI", "HAM"] scenarioOneFrame = ["HAM", "VER", "SAI"]
    ∧ (∀ run ret : DriverRaw, 0 < run.pos_raw → run.pos_raw < 9999 →
        ret.pos_raw = 0 → keyLt (sort_key_hybrid run) (sort_key_hybrid ret)) := by
  refine ⟨?_, ?_, ?_, ?_, ?_⟩
  · simp [sort_key_hybrid, scenarioOneFrame]
  · simp [sort_key_hybrid, scenarioOneFrame]
  · simp [sort_key_hybrid, scenarioOneFrame]
  · simp [tierAOrder, sortLe, insertLe, keyLe, keyLt, sort_key_hybrid, scenarioOneFrame]
    norm_num
  · intro run ret hpos hlt hret
    left
    simp only [sort_key_hybrid, if_pos hpos, hret]
    norm_num
    exact_mod_cast hlt

/-- C1 witness: the amended sink property at the scenario inputs — SAI
(`pos_raw = 3`) sorts strictly before the retired driver. -/
theorem sort_key_hybrid_claim_witness :
    keyLt (sort_key_hybrid ⟨3, some (21/10), some 900⟩)
      (sort_key_hybrid retiredDriver) :=
  sort_key_hybrid_claim.2.2.2.2 ⟨3, some (21/10), some 900⟩ retiredDriver
    (by norm_num) (by norm_num) (by norm_num [retiredDriver])

/-! ## Claim C2: temporal hysteresis -/

/-- The time at which the candidate order currently being fed to the filter
was first observed: the stored timestamp when the candidate is already the
pending one, the current time otherwise. -/
def firstObserved (st : PositionSmoothing) (candidate : List String) (t : ℚ) : ℚ :=
  if st.pending = some candidate then st.pendingSince else t

/-- C2: a candidate differing from the accepted order is emitted only once at
least `H` seconds have elapsed since it was first observed, with `H = 0.3`
under track status 4/5/6/7 and `H = 1.0` otherwise; until then the accepted
order is emitted unchanged.  On the literal scenario: accepted
`[HAM, VER, SAI]` at t=0, candidate `[VER, HAM, SAI]` at t=0.5 under status
"1" emits `[HAM, VER, SAI]`, and the same candidate at t=1.5 emits
`[VER, HAM, SAI]`. -/
theorem position_smoothing_hysteresis_claim :
    (∀ (st : PositionSmoothing) (acc cand : List String) (t : ℚ) (status : String),
      st.accepted = some acc → cand ≠ acc →
        (t - firstObserved st cand t < hysteresisH status →
          (st.apply cand t status).1 = acc)
        ∧ (hysteresisH status ≤ t - firstObserved st cand t →
          (st.apply cand t status).1 = cand))
    ∧ (∀ status : String,
        status = "4" ∨ status = "5" ∨ status = "6" ∨ status = "7" →
          hysteresisH status = 3/10)
    ∧ (∀ status : String,
        ¬(status = "4" ∨ status = "5" ∨ status = "6" ∨ status = "7") →
          hysteresisH status = 1)
    ∧ ((PositionSmoothing.init.apply ["HAM", "VER", "SAI"] 0 "1").2.apply
        ["VER", "HAM", "SAI"] (1/2) "1").1 = ["HAM", "VER", "SAI"]
    ∧ (((PositionSmoothing.init.apply ["HAM", "VER", "SAI"] 0 "1").2.apply
        ["VER", "HAM", "SAI"] (1/2) "1").2.apply
        ["VER", "HAM", "SAI"] (3/2) "1").1 = ["VER", "HAM", "SAI"] := by
  refine ⟨?_, ?_, ?_, ?_, ?_⟩
  · intro st acc cand t status hacc hne
    constructor
    · intro hlt
      simp only [firstObserved] at hlt
      simp only [PositionSmoothing.apply, hacc, if_neg hne]
      rw [if_neg (not_le.mpr hlt)]
    · intro hle
      simp only [firstObserved] at hle
      simp only [PositionSmoothing.apply, hacc, if_neg hne]
      rw [if_pos hle]
  · intro status h
    simp [hysteresisH, h]
  · intro status h
    simp [hysteresisH, h]
  · simp [PositionSmoothing.apply, PositionSmoothing.init, hysteresisH]
    norm_num
  · have hne : (["VER", "HAM", "SAI"] : List String) ≠ ["HAM", "VER", "SAI"] := by decide
    have hH : hysteresisH "1" = 1 := rfl
    have e1 : (PositionSmoothing.init.apply ["HAM", "VER", "SAI"] 0 "1").2
        = ⟨some ["HAM", "VER", "SAI"], none, 0⟩ := rfl
    have e2 : ((⟨some ["HAM", "VER", "SAI"], none, 0⟩ : PositionSmoothing).apply
        ["VER", "HAM", "SAI"] (1/2) "1")
        = (["HAM", "VER", "SAI"],
            ⟨some ["HAM", "VER", "SAI"], some ["VER", "HAM", "SAI"], 1/2⟩) := by
      simp only [PositionSmoothing.apply, if_neg hne]
      rw [show (if (none : Option (List String)) = some ["VER", "HAM", "SAI"]
            then (0 : ℚ) else 1/2) = 1/2 from rfl]
      rw [if_neg (by rw [hH]; norm_num : ¬(hysteresisH "1" ≤ 1/2 - 1/2))]
    have e3 : ((⟨some ["HAM", "VER", "SAI"], some ["VER", "HAM", "SAI"], 1/2⟩ :
          PositionSmoothing).apply ["VER", "HAM", "SAI"] (3/2) "1").1
        = ["VER", "HAM", "SAI"] := by
      simp only [PositionSmoothing.apply, if_neg hne, ite_true]
      rw [if_pos (by rw [hH]; norm_num : hysteresisH "1" ≤ 3/2 - 1/2)]
    rw [e1, e2]
    exact e3

/-- C2 witness: the universal part at the concrete filter state of the
scenario — with `[HAM, VER, SAI]` accepted and `[VER, HAM, SAI]` pending
since t=0.5, the call at t=1.5 under status "1" commits the swap. -/
theorem position_smoothing_hysteresis_claim_witness :
    ((⟨some ["HAM", "VER", "SAI"], some ["VER", "HAM", "SAI"], 1/2⟩ :
        PositionSmoothing).apply ["VER", "HAM", "SAI"] (3/2) "1").1
      = ["VER", "HAM", "SAI"] :=
  (position_smoothing_hysteresis_claim.1
      ⟨some ["HAM", "VER", "SAI"], some ["VER", "HAM", "SAI"], 1/2⟩
      ["HAM", "VER", "SAI"] ["VER", "HAM", "SAI"] (3/2) "1" rfl
      (by simp)).2
    (by simp only [firstObserved, ite_true]
        rw [show hysteresisH "1" = 1 from rfl]
        norm_num)

/-! ## Claim C3: lap-boundary anchoring -/

/-- With no anchors left, the slot walk plays out the non-anchored queue
unchanged. -/
theorem fillSlots_no_anchors : ∀ (l : List String) (i : Nat),
    fillSlots i l.length [] l = l
  | [], _ => rfl
  | x :: xs, i => by
    simpa [fillSlots] using fillSlots_no_anchors xs (i + 1)

/-- The lap-boundaries mapping of spec section 8, scenario 5:
`{HAM: {25: 1}, VER: {25: 3}, SAI: {25: 2}}`. -/
def scenarioFiveBoundaries : String → Nat → Option Nat := fun c l =>
  if l = 25 then
    if c = "HAM" then some 1
    else if c = "VER" then some 3
    else if c = "SAI" then some 2
    else none
  else none

/-- C3: with an empty lap-boundaries mapping the overlay leaves any order
unchanged, and on the literal scenario — `[HAM, VER, SAI]` at lap 25 with
boundaries HAM↦1, VER↦3, SAI↦2 — it emits `[HAM, SAI, VER]`, each anchored
driver landing at its official 1-indexed slot. -/
theorem apply_lap_anchor_claim :
    (∀ (sortedCodes : List String) (lap : String → Option Nat),
      applyLapAnchor sortedCodes lap (fun _ _ => none) = sortedCodes)
    ∧ applyLapAnchor ["HAM", "VER", "SAI"] (fun _ => some 25) scenarioFiveBoundaries
      = ["HAM", "SAI", "VER"] := by
  constructor
  · intro sortedCodes lap
    have hnone : ∀ c : String, anchorOf lap (fun _ _ => none) c = none := by
      intro c
      unfold anchorOf
      cases lap c <;> rfl
    unfold applyLapAnchor
    rw [show (sortedCodes.filterMap fun c =>
        (anchorOf lap (fun _ _ => none) c).map fun p => (c, p)) = [] from
      List.filterMap_eq_nil_iff.mpr (by intro c _; rw [hnone c]; rfl)]
    rw [show (sortedCodes.filter fun c =>
        (anchorOf lap (fun _ _ => none) c).isNone) = sortedCodes from
      List.filter_eq_self.mpr (by intro c _; rw [hnone c]; rfl)]
    exact fillSlots_no_anchors sortedCodes 1
  · decide

/-! ## Claims C7-C9: the cache layer -/

/-- Looking up the key just written finds the written value. -/
theorem lookup_writeKey_self {α : Type} (l : List (String × α)) (key : String)
    (v : α) : lookupKey (writeKey l key v) key = some v := by
  simp [lookupKey, writeKey]

/-- Deleting a key removes exactly that key from the lookup. -/
theorem lookup_eraseKey {α : Type} (l : List (String × α)) (key k : String) :
    lookupKey (eraseKey l key) k = if k = key then none else lookupKey l k := by
  induction l with
  | nil => simp [lookupKey, eraseKey]
  | cons kv rest ih =>
    simp only [eraseKey]
    by_cases hk : kv.1 = key
    · rw [if_pos hk, ih]
      by_cases hkk : k = key
      · simp [hkk]
      · rw [if_neg hkk]
        have hne : ¬ k = kv.1 := fun h => hkk (h.trans hk)
        simp [lookupKey, hne, hkk]
    · rw [if_neg hk]
      by_cases hkk : k = kv.1
      · have hne : ¬ k = key := fun h => hk (hkk.symm.trans h)
        simp [lookupKey, hkk, hne, hk]
      · simp [lookupKey, hkk, ih]

/-- Memory-tier hit: `get_cached_telemetry` returns the in-memory entry and
leaves the state untouched without invoking the loader. -/
theorem get_cached_mem_hit {α : Type} (st : CacheState α)
    (loader : Nat → Nat → String → α) (year roundNum : Nat)
    (sessionType : String) (v : α)
    (hm : memLookup st (cacheKey year roundNum sessionType) = some v) :
    get_cached_telemetry st loader year roundNum sessionType false = (v, st, 0) := by
  simp [get_cached_telemetry, hm]

/-- Disk-tier hit: on a memory miss with a parseable disk file,
`get_cached_telemetry` returns the parsed payload and populates memory
without invoking the loader. -/
theorem get_cached_disk_hit {α : Type} (st : CacheState α)
    (loader : Nat → Nat → String → α) (year roundNum : Nat)
    (sessionType : String) (v : α)
    (hm : memLookup st (cacheKey year roundNum sessionType) = none)
    (hd : diskRead st (cacheKey year roundNum sessionType) = some v) :
    get_cached_telemetry st loader year roundNum sessionType false
      = (v, { st with
                mem := writeKey st.mem (cacheKey year roundNum sessionType) v },
         0) := by
  simp [get_cached_telemetry, hm, hd]

/-- Full miss: both tiers miss, so the loader runs exactly once, memory is
populated, and the asynchronous disk write is scheduled. -/
theorem get_cached_both_miss {α : Type} (st : CacheState α)
    (loader : Nat → Nat → String → α) (year roundNum : Nat)
    (sessionType : String)
    (hm : memLookup st (cacheKey year roundNum sessionType) = none)
    (hd : diskRead st (cacheKey year roundNum sessionType) = none) :
    get_cached_telemetry st loader year roundNum sessionType false
      = (loader year roundNum sessionType,
         { st with
             mem := writeKey st.mem (cacheKey year roundNum sessionType)
               (loader year roundNum sessionType)
             pendingSaves := (cacheKey year roundNum sessionType,
               loader year roundNum sessionType) :: st.pendingSaves },
         1) := by
  simp [get_cached_telemetry, hm, hd]

/-- After any `refresh = false` call, the in-memory cache holds the value the
call returned. -/
theorem get_cached_post_mem {α : Type} (st : CacheState α)
    (loader : Nat → Nat → String → α) (year roundNum : Nat)
    (sessionType : String) :
    memLookup (get_cached_telemetry st loader year roundNum sessionType false).2.1
        (cacheKey year roundNum sessionType)
      = some (get_cached_telemetry st loader year roundNum sessionType false).1 := by
  cases hm : memLookup st (cacheKey year roundNum sessionType) with
  | some v =>
    rw [get_cached_mem_hit st loader year roundNum sessionType v hm]
    exact hm
  | none =>
    cases hd : diskRead st (cacheKey year roundNum sessionType) with
    | some v =>
      rw [get_cached_disk_hit st loader year roundNum sessionType v hm hd]
      simpa [memLookup] using lookup_writeKey_self st.mem _ v
    | none =>
      rw [get_cached_both_miss st loader year roundNum sessionType hm hd]
      simpa [memLookup] using lookup_writeKey_self st.mem _ _

/-- C7: with `refresh = false`, `get_cached_telemetry` returns the in-memory
entry when present; otherwise returns the parsed disk file and populates
memory; otherwise invokes the loader exactly once, stores the result in
memory, schedules the disk write, and returns it — and a second call with
the same key returns the same artifact. -/
theorem get_cached_telemetry_contract :
    (∀ (α : Type) (st : CacheState α) (loader : Nat → Nat → String → α)
        (year roundNum : Nat) (sessionType : String) (v : α),
      memLookup st (cacheKey year roundNum sessionType) = some v →
        get_cached_telemetry st loader year roundNum sessionType false = (v, st, 0))
    ∧ (∀ (α : Type) (st : CacheState α) (loader : Nat → Nat → String → α)
        (year roundNum : Nat) (sessionType : String) (v : α),
      memLookup st (cacheKey year roundNum sessionType) = none →
      diskRead st (cacheKey year roundNum sessionType) = some v →
        get_cached_telemetry st loader year roundNum sessionType false
          = (v, { st with
                    mem := writeKey st.mem (cacheKey year roundNum sessionType) v },
             0))
    ∧ (∀ (α : Type) (st : CacheState α) (loader : Nat → Nat → String → α)
        (year roundNum : Nat) (sessionType : String),
      memLookup st (cacheKey year roundNum sessionType) = none →
      diskRead st (cacheKey year roundNum sessionType) = none →
        get_cached_telemetry st loader year roundNum sessionType false
          = (loader year roundNum sessionType,
             { st with
                 mem := writeKey st.mem (cacheKey year roundNum sessionType)
                   (loader year roundNum sessionType)
                 pendingSaves := (cacheKey year roundNum sessionType,
                   loader year roundNum sessionType) :: st.pendingSaves },
             1))
    ∧ (∀ (α : Type) (st : CacheState α) (loader : Nat → Nat → String → α)
        (year roundNum : Nat) (sessionType : String),
        (get_cached_telemetry
            (get_cached_telemetry st loader year roundNum sessionType false).2.1
            loader year roundNum sessionType false).1
          = (get_cached_telemetry st loader year roundNum sessionType false).1) := by
  refine ⟨fun α st loader year roundNum sessionType v hm =>
      get_cached_mem_hit st loader year roundNum sessionType v hm,
    fun α st loader year roundNum sessionType v hm hd =>
      get_cached_disk_hit st loader year roundNum sessionType v hm hd,
    fun α st loader year roundNum sessionType hm hd =>
      get_cached_both_miss st loader year roundNum sessionType hm hd, ?_⟩
  intro α st loader year roundNum sessionType
  rw [get_cached_mem_hit _ loader year roundNum sessionType _
    (get_cached_post_mem st loader year roundNum sessionType)]

/-- C7 witness: on a concrete state whose memory holds the key, the call
returns the memory entry untouched. -/
theorem get_cached_telemetry_contract_witness :
    get_cached_telemetry
        (⟨[("2024_1_R", 5)], [], []⟩ : CacheState Nat)
        (fun _ _ _ => 7) 2024 1 "R" false
      = (5, ⟨[("2024_1_R", 5)], [], []⟩, 0) :=
  get_cached_telemetry_contract.1 Nat ⟨[("2024_1_R", 5)], [], []⟩
    (fun _ _ _ => 7) 2024 1 "R" 5 (by rfl)

/-- The caught cache failures: a disk file that fails to parse makes
`get_cached_telemetry` fall through to the loader (still returning
normally), a failed asynchronous save leaves the state exactly as it was,
and no save outcome ever touches the in-memory entry or the scheduled-save
queue.  (The one uncaught failure of the layer is settled by
`cache_mkdir_failure_raises` below.) -/
theorem cache_failures_nonfatal :
    (∀ (α : Type) (st : CacheState α) (loader : Nat → Nat → String → α)
        (year roundNum : Nat) (sessionType : String),
      memLookup st (cacheKey year roundNum sessionType) = none →
      lookupKey st.disk (cacheKey year roundNum sessionType)
          = some DiskFile.corrupt →
        (get_cached_telemetry st loader year roundNum sessionType false).1
            = loader year roundNum sessionType
        ∧ (get_cached_telemetry st loader year roundNum sessionType false).2.2 = 1)
    ∧ (∀ (α : Type) (st : CacheState α) (key : String) (v : α),
        save_cache_async st key v false = st)
    ∧ (∀ (α : Type) (st : CacheState α) (key : String) (v : α) (ok : Bool),
        (save_cache_async st key v ok).mem = st.mem
        ∧ (save_cache_async st key v ok).pendingSaves = st.pendingSaves) := by
  refine ⟨?_, ?_, ?_⟩
  · intro α st loader year roundNum sessionType hm hcor
    have hd : diskRead st (cacheKey year roundNum sessionType) = none := by
      simp [diskRead, hcor]
    rw [get_cached_both_miss st loader year roundNum sessionType hm hd]
    exact ⟨rfl, rfl⟩
  · intro α st key v
    simp [save_cache_async]
  · intro α st key v ok
    cases ok <;> simp [save_cache_async]

/-- A corrupt disk file for the key, with an empty memory tier, falls
through to the loader, which runs once. -/
theorem cache_failures_nonfatal_witness :
    (get_cached_telemetry
        (⟨[], [("2024_1_R", DiskFile.corrupt)], []⟩ : CacheState Nat)
        (fun _ _ _ => 7) 2024 1 "R" false).1 = 7
    ∧ (get_cached_telemetry
        (⟨[], [("2024_1_R", DiskFile.corrupt)], []⟩ : CacheState Nat)
        (fun _ _ _ => 7) 2024 1 "R" false).2.2 = 1 :=
  cache_failures_nonfatal.1 Nat ⟨[], [("2024_1_R", DiskFile.corrupt)], []⟩
    (fun _ _ _ => 7) 2024 1 "R" (by rfl) (by rfl)

/-- C8 (code_bug): the claim's policy — a cache read or write failure never
raises to the caller of `get_cached_telemetry` — is the contract the spec
states (section 4.6: a disk write failure must log but not fail the call;
section 7: CacheErrors are always non-fatal for callers), but the code
misses it on one path: `session_cache.py` line 98 runs
`cache_file.parent.mkdir(parents=True, exist_ok=True)` outside any `try`
block, between the loader call and the memory store.  Proved: the model with
that step explicit agrees with `get_cached_telemetry` whenever the directory
creation succeeds, and at the failing input — both cache tiers missing and
the directory creation failing — the call raises after invoking the loader
once, leaving the cache state untouched. -/
theorem cache_mkdir_failure_raises :
    (∀ (α : Type) (st : CacheState α) (loader : Nat → Nat → String → α)
        (year roundNum : Nat) (sessionType : String) (refresh : Bool),
      get_cached_telemetry_run st loader year roundNum sessionType refresh true
        = (Except.ok (get_cached_telemetry st loader year roundNum sessionType refresh).1,
           (get_cached_telemetry st loader year roundNum sessionType refresh).2.1,
           (get_cached_telemetry st loader year roundNum sessionType refresh).2.2))
    ∧ get_cached_telemetry_run (⟨[], [], []⟩ : CacheState Nat)
        (fun _ _ _ => 7) 2024 1 "R" false false
      = (Except.error (), ⟨[], [], []⟩, 1) := by
  constructor
  · intro α st loader year roundNum sessionType refresh
    cases refresh with
    | true => rfl
    | false =>
      cases hm : memLookup st (cacheKey year roundNum sessionType) with
      | some v =>
        rw [get_cached_mem_hit st loader year roundNum sessionType v hm]
        simp [get_cached_telemetry_run, hm]
      | none =>
        cases hd : diskRead st (cacheKey year roundNum sessionType) with
        | some v =>
          rw [get_cached_disk_hit st loader year roundNum sessionType v hm hd]
          simp [get_cached_telemetry_run, hm, hd]
        | none =>
          rw [get_cached_both_miss st loader year roundNum sessionType hm hd]
          simp [get_cached_telemetry_run, hm, hd]
  · rfl

/-- C9: `clear_cache` only mutates the in-memory map — disk files and
scheduled saves are untouched; with a year but no round and no session type
it removes exactly the key built with the defaults `round=0`,
`session_type="R"`; and after clearing a key whose disk file exists and
parses, the next call returns the disk-cached value without invoking the
loader. -/
theorem clear_cache_claim :
    (∀ (α : Type) (st : CacheState α) (year roundNum : Option Nat)
        (sessionType : Option String),
      (clear_cache st year roundNum sessionType).disk = st.disk
      ∧ (clear_cache st year roundNum sessionType).pendingSaves = st.pendingSaves)
    ∧ (∀ (α : Type) (st : CacheState α) (year : Nat),
      memLookup (clear_cache st (some year) none none) (cacheKey year 0 "R") = none
      ∧ ∀ k : String, k ≠ cacheKey year 0 "R" →
          memLookup (clear_cache st (some year) none none) k = memLookup st k)
    ∧ (∀ (α : Type) (st : CacheState α) (loader : Nat → Nat → String → α)
        (year : Nat) (v : α),
      diskRead st (cacheKey year 0 "R") = some v →
        (get_cached_telemetry (clear_cache st (some year) none none) loader
            year 0 "R" false).1 = v
        ∧ (get_cached_telemetry (clear_cache st (some year) none none) loader
            year 0 "R" false).2.2 = 0) := by
  refine ⟨?_, ?_, ?_⟩
  · intro α st year roundNum sessionType
    cases year <;> simp [clear_cache]
  · intro α st year
    constructor
    · simp [clear_cache, memLookup, pyOrNat, pyOrStr, lookup_eraseKey]
    · intro k hk
      simp [clear_cache, memLookup, pyOrNat, pyOrStr, lookup_eraseKey, hk]
  · intro α st loader year v hd
    have hm : memLookup (clear_cache st (some year) none none)
        (cacheKey year 0 "R") = none := by
      simp [clear_cache, memLookup, pyOrNat, pyOrStr, lookup_eraseKey]
    have hd' : diskRead (clear_cache st (some year) none none)
        (cacheKey year 0 "R") = some v := by
      simpa [clear_cache, diskRead, pyOrNat, pyOrStr] using hd
    rw [get_cached_disk_hit _ loader year 0 "R" v hm hd']
    exact ⟨rfl, rfl⟩

/-- C9 witness: clearing year 2024 with the defaults removes the in-memory
entry for `2024_0_R`, and the next call reads the value 9 back from disk
with zero loader invocations. -/
theorem clear_cache_claim_witness :
    (get_cached_telemetry
        (clear_cache (⟨[("2024_0_R", 5)], [("2024_0_R", DiskFile.good 9)], []⟩ :
            CacheState Nat) (some 2024) none none)
        (fun _ _ _ => 7) 2024 0 "R" false).1 = 9
    ∧ (get_cached_telemetry
        (clear_cache (⟨[("2024_0_R", 5)], [("2024_0_R", DiskFile.good 9)], []⟩ :
            CacheState Nat) (some 2024) none none)
        (fun _ _ _ => 7) 2024 0 "R" false).2.2 = 0 :=
  clear_cache_claim.2.2 Nat
    ⟨[("2024_0_R", 5)], [("2024_0_R", DiskFile.good 9)], []⟩
    (fun _ _ _ => 7) 2024 9 (by rfl)

/-! ## Claim C4: the dispatch tick -/

/-- The frame index after the advance phase of one tick: moved by
`playback_speed * (1/60) * 25` while playing, untouched while paused. -/
def advancedIndex (s : PlayerState) : ℚ :=
  if s.is_playing then s.frame_index + s.playback_speed * (1/60) * 25
  else s.frame_index

/-- C4 counterexample: the claim computes `current = floor(frame_index)`, but
the code computes `int(frame_index)`, truncating toward zero.  After
`seek(-0.5)` — a message the handler accepts — the paused tick over 3 frames
sends frame 0 (`int(-0.5) = 0` passes the range guard), while the floor
reading (`floor(-0.5) = -1`) sends nothing. -/
theorem tick_truncation_vs_floor :
    recvStep PlayerState.start (ControlMsg.seek (-(1/2)))
      = ⟨-(1/2), 1, false, -1⟩
    ∧ (tickStep 3 ⟨-(1/2), 1, false, -1⟩).2 = some 0
    ∧ tickSentFloorSpec 3 ⟨-(1/2), 1, false, -1⟩ = none := by
  refine ⟨rfl, ?_, ?_⟩
  · have hceil : pyInt (-(1/2) : ℚ) = 0 := by
      unfold pyInt
      rw [if_neg (by norm_num)]
      norm_num
    simp only [tickStep]
    norm_num [hceil]
  · have hfloor : ⌊(-(1/2) : ℚ)⌋ = -1 := by norm_num
    simp only [tickSentFloorSpec]
    norm_num [hfloor]

/-- C4 (amended): on every tick, `frame_index` advances by
`playback_speed * (1/60) * 25` exactly when playing; with
`current = int(frame_index)` (truncation toward zero, which agrees with
floor on the nonnegative indices), a frame is sent if and only if `current`
differs from `last_frame_sent` and `0 ≤ current < n`, after which
`last_frame_sent := current`; and whenever the advanced index reaches `n`,
`frame_index` is clamped to `n - 1` and playback pauses. -/
theorem tick_step_claim :
    ∀ (n : Nat) (s : PlayerState),
      ((tickStep n s).2
        = if pyInt (advancedIndex s) ≠ s.last_frame_sent
              ∧ 0 ≤ pyInt (advancedIndex s) ∧ pyInt (advancedIndex s) < (n : ℤ)
          then some (pyInt (advancedIndex s)) else none)
      ∧ ((tickStep n s).1.last_frame_sent
        = if pyInt (advancedIndex s) ≠ s.last_frame_sent
              ∧ 0 ≤ pyInt (advancedIndex s) ∧ pyInt (advancedIndex s) < (n : ℤ)
          then pyInt (advancedIndex s) else s.last_frame_sent)
      ∧ ((n : ℚ) ≤ advancedIndex s →
          (tickStep n s).1.frame_index = (n : ℚ) - 1
          ∧ (tickStep n s).1.is_playing = false)
      ∧ (advancedIndex s < (n : ℚ) →
          (tickStep n s).1.frame_index = advancedIndex s
          ∧ (tickStep n s).1.is_playing = s.is_playing)
      ∧ (s.is_playing = true →
          advancedIndex s = s.frame_index + s.playback_speed * (1/60) * 25)
      ∧ (s.is_playing = false → advancedIndex s = s.frame_index) := by
  intro n s
  simp only [tickStep, advancedIndex]
  refine ⟨?_, ?_, ?_, ?_, ?_, ?_⟩
  · split_ifs <;> simp_all
  · split_ifs <;> simp_all
  · intro hclamp
    rw [if_pos hclamp]
    exact ⟨rfl, rfl⟩
  · intro hlt
    rw [if_neg (not_le.mpr hlt)]
    exact ⟨rfl, rfl⟩
  · intro hp
    rw [hp]
    simp
  · intro hp
    rw [hp]
    simp

/-- C4 witness: the amended clamp clause at a concrete state — a paused
dispatcher sitting at frame index 5 over 3 frames is clamped to 2 and stays
paused. -/
theorem tick_step_claim_witness :
    (tickStep 3 ⟨5, 1, false, 2⟩).1.frame_index = (3 : ℚ) - 1
    ∧ (tickStep 3 ⟨5, 1, false, 2⟩).1.is_playing = false :=
  (tick_step_claim 3 ⟨5, 1, false, 2⟩).2.2.1
    (by norm_num [advancedIndex])

/-! ## Claim C5: strictly increasing frame emission -/

/-- Truncation toward zero is at least the floor. -/
theorem floor_le_pyInt (q : ℚ) : ⌊q⌋ ≤ pyInt q := by
  unfold pyInt
  split_ifs
  · exact le_refl _
  · exact Int.floor_le_ceil q

/-- An integer below `q` is at most `int(q)`. -/
theorem le_pyInt_of_le {m : ℤ} {q : ℚ} (h : (m : ℚ) ≤ q) : m ≤ pyInt q :=
  le_trans (Int.le_floor.mpr h) (floor_le_pyInt q)

/-- On nonnegative input, truncation stays below the input. -/
theorem pyInt_le_of_nonneg {q : ℚ} (h : 0 ≤ q) : (pyInt q : ℚ) ≤ q := by
  unfold pyInt
  rw [if_pos h]
  exact Int.floor_le q

/-- The advance phase never moves the index backwards while the speed is
nonnegative. -/
theorem le_advancedIndex (s : PlayerState) (hsp : 0 ≤ s.playback_speed) :
    s.frame_index ≤ advancedIndex s := by
  unfold advancedIndex
  split_ifs
  · have h25 : 0 ≤ s.playback_speed * (1/60) * 25 := by positivity
    linarith
  · exact le_refl _

/-- The dispatcher invariant tying `last_frame_sent` to `frame_index`:
nonnegative speed and index, and the last sent frame (when any) is
nonnegative, at most the current index, and below the frame count. -/
def DispatchInv (n : Nat) (s : PlayerState) : Prop :=
  0 ≤ s.playback_speed ∧ 0 ≤ s.frame_index ∧
  (s.last_frame_sent = -1 ∨
    (0 ≤ s.last_frame_sent ∧ (s.last_frame_sent : ℚ) ≤ s.frame_index
      ∧ s.last_frame_sent < (n : ℤ)))

/-- The control messages the spec admits: `play` with positive speed, `seek`
with nonnegative frame, `pause`, unknown actions, or none this tick. -/
def ValidMsg : Option ControlMsg → Prop
  | some (ControlMsg.play speed) => 0 < speed
  | some (ControlMsg.seek f) => 0 ≤ f
  | _ => True

/-- Whether this iteration's message is a seek (the one event allowed to
restart the emission order). -/
def isSeekMsg : Option ControlMsg → Prop
  | some (ControlMsg.seek _) => True
  | _ => False

/-- Any frame reported sent by the tick passed the range-and-novelty guard. -/
theorem tick_sent_bounds (n : Nat) (s : PlayerState) (i : ℤ)
    (h : (tickStep n s).2 = some i) :
    0 ≤ i ∧ i < (n : ℤ) ∧ i = pyInt (advancedIndex s)
      ∧ i ≠ s.last_frame_sent := by
  simp only [tickStep] at h
  have h' : (if pyInt (advancedIndex s) ≠ s.last_frame_sent
        ∧ 0 ≤ pyInt (advancedIndex s) ∧ pyInt (advancedIndex s) < (n : ℤ)
      then some (pyInt (advancedIndex s)) else none) = some i := by
    rcases le_or_lt ((n : ℚ))
        (if s.is_playing = true
          then s.frame_index + s.playback_speed * (1/60) * 25
          else s.frame_index) with hc | hc
    · rw [if_pos hc] at h
      exact h
    · rw [if_neg (not_le.mpr hc)] at h
      exact h
  by_cases hg : pyInt (advancedIndex s) ≠ s.last_frame_sent
      ∧ 0 ≤ pyInt (advancedIndex s) ∧ pyInt (advancedIndex s) < (n : ℤ)
  · rw [if_pos hg] at h'
    have hi : pyInt (advancedIndex s) = i := Option.some.inj h'
    exact ⟨hi ▸ hg.2.1, hi ▸ hg.2.2, hi.symm, hi ▸ hg.1⟩
  · rw [if_neg hg] at h'
    exact absurd h' (by simp)

/-- One tick preserves the dispatcher invariant. -/
theorem tick_preserves_inv (n : Nat) (s : PlayerState) (hn : 1 ≤ n)
    (h : DispatchInv n s) : DispatchInv n (tickStep n s).1 := by
  obtain ⟨hsp, hfi, hlast⟩ := h
  have hadv : s.frame_index ≤ advancedIndex s := le_advancedIndex s hsp
  have hfi0 : 0 ≤ advancedIndex s := le_trans hfi hadv
  have hn1 : (1 : ℚ) ≤ (n : ℚ) := by exact_mod_cast hn
  simp only [tickStep]
  rw [show (if s.is_playing = true
      then s.frame_index + s.playback_speed * (1/60) * 25
      else s.frame_index) = advancedIndex s from rfl]
  by_cases hg : pyInt (advancedIndex s) ≠ s.last_frame_sent
      ∧ 0 ≤ pyInt (advancedIndex s) ∧ pyInt (advancedIndex s) < (n : ℤ)
  · rw [if_pos hg]
    by_cases hclamp : ((n : ℚ)) ≤ advancedIndex s
    · rw [if_pos hclamp]
      refine ⟨hsp, by show (0:ℚ) ≤ (n : ℚ) - 1; linarith,
        Or.inr ⟨hg.2.1, ?_, hg.2.2⟩⟩
      show (pyInt (advancedIndex s) : ℚ) ≤ (n : ℚ) - 1
      have hle1 : pyInt (advancedIndex s) ≤ (n : ℤ) - 1 := by
        have := hg.2.2
        omega
      calc (pyInt (advancedIndex s) : ℚ) ≤ (((n : ℤ) - 1 : ℤ) : ℚ) := by
            exact_mod_cast hle1
        _ = (n : ℚ) - 1 := by push_cast; ring
    · rw [if_neg hclamp]
      refine ⟨hsp, le_trans hfi hadv, Or.inr ⟨hg.2.1, ?_, hg.2.2⟩⟩
      exact pyInt_le_of_nonneg hfi0
  · rw [if_neg hg]
    by_cases hclamp : ((n : ℚ)) ≤ advancedIndex s
    · rw [if_pos hclamp]
      refine ⟨hsp, by show (0:ℚ) ≤ (n : ℚ) - 1; linarith, ?_⟩
      rcases hlast with h1 | ⟨hl0, _, hln⟩
      · exact Or.inl h1
      · refine Or.inr ⟨hl0, ?_, hln⟩
        show (s.last_frame_sent : ℚ) ≤ (n : ℚ) - 1
        have hle1 : s.last_frame_sent ≤ (n : ℤ) - 1 := by omega
        calc (s.last_frame_sent : ℚ) ≤ (((n : ℤ) - 1 : ℤ) : ℚ) := by
              exact_mod_cast hle1
          _ = (n : ℚ) - 1 := by push_cast; ring
    · rw [if_neg hclamp]
      refine ⟨hsp, le_trans hfi hadv, ?_⟩
      rcases hlast with h1 | ⟨hl0, hle, hln⟩
      · exact Or.inl h1
      · exact Or.inr ⟨hl0, le_trans hle hadv, hln⟩

/-- A frame sent by a tick from an invariant state that has already sent one
frame is strictly newer than the previous one. -/
theorem tick_send_mono (n : Nat) (s : PlayerState) (i : ℤ)
    (h : DispatchInv n s) (hl : s.last_frame_sent ≠ -1)
    (hsent : (tickStep n s).2 = some i) : s.last_frame_sent < i := by
  obtain ⟨hsp, hfi, hlast⟩ := h
  rcases hlast with h1 | ⟨hl0, hle, hln⟩
  · exact absurd h1 hl
  obtain ⟨_, _, hi, hne⟩ := tick_sent_bounds n s i hsent
  have : s.last_frame_sent ≤ pyInt (advancedIndex s) :=
    le_pyInt_of_le (le_trans hle (le_advancedIndex s hsp))
  rw [← hi] at this
  exact lt_of_le_of_ne this (Ne.symm hne)

/-- Handling one valid control message preserves the invariant. -/
theorem recv_preserves_inv (n : Nat) (s : PlayerState) (m : ControlMsg)
    (hv : ValidMsg (some m)) (h : DispatchInv n s) :
    DispatchInv n (recvStep s m) := by
  obtain ⟨hsp, hfi, hlast⟩ := h
  cases m with
  | play speed => exact ⟨le_of_lt hv, hfi, hlast⟩
  | pause => exact ⟨hsp, hfi, hlast⟩
  | seek f => exact ⟨hsp, hv, Or.inl rfl⟩
  | other => exact ⟨hsp, hfi, hlast⟩

/-- A non-seek message leaves `last_frame_sent` unchanged. -/
theorem recv_keeps_last (s : PlayerState) (m : Option ControlMsg)
    (hm : ¬ isSeekMsg m) :
    (match m with
     | some msg => recvStep s msg
     | none => s).last_frame_sent = s.last_frame_sent := by
  cases m with
  | none => rfl
  | some msg =>
    cases msg with
    | play speed => rfl
    | pause => rfl
    | seek f => exact absurd trivial hm
    | other => rfl

/-- C5: under the control messages the spec admits, the dispatcher invariant
is preserved by every loop iteration, every frame sent from a state that
already sent one (with no seek in between) has a strictly larger index, a
seek restarts the ordering by resetting `last_frame_sent` to −1 at the
requested index, and the initial state satisfies the invariant. -/
theorem dispatcher_strictly_increasing_claim :
    (∀ (n : Nat) (s : PlayerState) (m : Option ControlMsg),
      1 ≤ n → ValidMsg m → DispatchInv n s → DispatchInv n (loopIter n s m).1)
    ∧ (∀ (n : Nat) (s : PlayerState) (m : Option ControlMsg) (i : ℤ),
      ValidMsg m → DispatchInv n s → ¬ isSeekMsg m →
      s.last_frame_sent ≠ -1 → (loopIter n s m).2 = some i →
        s.last_frame_sent < i)
    ∧ (∀ (s : PlayerState) (f : ℚ),
      recvStep s (ControlMsg.seek f)
        = { s with frame_index := f, last_frame_sent := -1 })
    ∧ (∀ n : Nat, DispatchInv n PlayerState.start) := by
  refine ⟨?_, ?_, ?_, ?_⟩
  · intro n s m hn hv hinv
    unfold loopIter
    cases m with
    | none => exact tick_preserves_inv n s hn hinv
    | some msg => exact tick_preserves_inv n _ hn (recv_preserves_inv n s msg hv hinv)
  · intro n s m i hv hinv hns hl hsent
    unfold loopIter at hsent
    have hlast := recv_keeps_last s m hns
    cases m with
    | none => exact tick_send_mono n s i hinv hl hsent
    | some msg =>
      have hinv' : DispatchInv n (recvStep s msg) :=
        recv_preserves_inv n s msg hv hinv
      have := tick_send_mono n (recvStep s msg) i hinv'
        (by rw [show (recvStep s msg).last_frame_sent = s.last_frame_sent from hlast]; exact hl)
        hsent
      rwa [show (recvStep s msg).last_frame_sent = s.last_frame_sent from hlast] at this
  · intro s f
    rfl
  · intro n
    exact ⟨by norm_num [PlayerState.start], by norm_num [PlayerState.start], Or.inl rfl⟩

/-- C5 witness: the invariant is preserved across one message-free iteration
from the initial state over one frame. -/
theorem dispatcher_strictly_increasing_claim_witness :
    DispatchInv 1 (loopIter 1 PlayerState.start none).1 :=
  dispatcher_strictly_increasing_claim.1 1 PlayerState.start none
    (le_refl 1) trivial
    ⟨by norm_num [PlayerState.start], by norm_num [PlayerState.start], Or.inl rfl⟩

/-! ## Claim C10: range safety and seeks past the end -/

/-- C10 counterexample: "a seek at or past the end results, on the subsequent
tick, in `frame_index` being reset to `len(frames) - 1` and playback
paused" fails when an accepted `play` message carried a negative speed: after
`play(speed=-6)` and `seek(10)` over 10 frames, the tick moves the index
backwards to 7.5, sends frame 7, and keeps playing — no clamp, no pause. -/
theorem seek_past_end_negative_speed_gap :
    recvStep (recvStep PlayerState.start (ControlMsg.play (-6)))
        (ControlMsg.seek 10) = ⟨10, -6, true, -1⟩
    ∧ (tickStep 10 ⟨10, -6, true, -1⟩).1.is_playing = true
    ∧ (tickStep 10 ⟨10, -6, true, -1⟩).1.frame_index = 15/2
    ∧ (tickStep 10 ⟨10, -6, true, -1⟩).2 = some 7 := by
  have hp : pyInt (15/2 : ℚ) = 7 := by
    unfold pyInt
    rw [if_pos (by norm_num : (0:ℚ) ≤ 15/2)]
    norm_num
  have hfi : ((10:ℚ) + (-6) * (1/60) * 25) = 15/2 := by norm_num
  refine ⟨rfl, ?_, ?_, ?_⟩
  all_goals
    simp only [tickStep]
    norm_num [hfi, hp]

/-- A seek to a target at or past the end, from a state with nonnegative
playback speed, sends nothing on its tick and leaves the dispatcher paused
at the final index with `last_frame_sent = -1`. -/
theorem seek_past_end_clamps (n : Nat) (s : PlayerState) (f : ℚ)
    (_hn : 1 ≤ n) (hf : (n : ℚ) ≤ f) (hsp : 0 ≤ s.playback_speed) :
    (loopIter n s (some (ControlMsg.seek f))).2 = none
    ∧ (loopIter n s (some (ControlMsg.seek f))).1
        = ⟨(n : ℚ) - 1, s.playback_speed, false, -1⟩ := by
  have hadv : f ≤ advancedIndex { s with frame_index := f, last_frame_sent := -1 } :=
    le_advancedIndex _ hsp
  have hclamp : (n : ℚ) ≤ advancedIndex { s with frame_index := f, last_frame_sent := -1 } :=
    le_trans hf hadv
  have hcur : (n : ℤ) ≤ pyInt (advancedIndex { s with frame_index := f, last_frame_sent := -1 }) :=
    le_pyInt_of_le hclamp
  have hguard : ¬(pyInt (advancedIndex { s with frame_index := f, last_frame_sent := -1 })
      ≠ ({ s with frame_index := f, last_frame_sent := -1 } : PlayerState).last_frame_sent
      ∧ 0 ≤ pyInt (advancedIndex { s with frame_index := f, last_frame_sent := -1 })
      ∧ pyInt (advancedIndex { s with frame_index := f, last_frame_sent := -1 }) < (n : ℤ)) :=
    fun h => absurd h.2.2 (not_lt.mpr hcur)
  constructor
  · show (tickStep n { s with frame_index := f, last_frame_sent := -1 }).2 = none
    simp only [tickStep]
    rw [show (if ({ s with frame_index := f, last_frame_sent := -1 } : PlayerState).is_playing = true
        then ({ s with frame_index := f, last_frame_sent := -1 } : PlayerState).frame_index
          + ({ s with frame_index := f, last_frame_sent := -1 } : PlayerState).playback_speed * (1/60) * 25
        else ({ s with frame_index := f, last_frame_sent := -1 } : PlayerState).frame_index)
      = advancedIndex { s with frame_index := f, last_frame_sent := -1 } from rfl]
    rw [if_neg hguard, if_pos hclamp]
  · show (tickStep n { s with frame_index := f, last_frame_sent := -1 }).1 = _
    simp only [tickStep]
    rw [show (if ({ s with frame_index := f, last_frame_sent := -1 } : PlayerState).is_playing = true
        then ({ s with frame_index := f, last_frame_sent := -1 } : PlayerState).frame_index
          + ({ s with frame_index := f, last_frame_sent := -1 } : PlayerState).playback_speed * (1/60) * 25
        else ({ s with frame_index := f, last_frame_sent := -1 } : PlayerState).frame_index)
      = advancedIndex { s with frame_index := f, last_frame_sent := -1 } from rfl]
    rw [if_neg hguard, if_pos hclamp]

/-- Once the dispatcher sits paused at the final index with
`last_frame_sent = -1`, the next tick sends the final frame. -/
theorem final_frame_after_clamp (n : Nat) (speed : ℚ) (hn : 1 ≤ n) :
    (tickStep n (⟨(n : ℚ) - 1, speed, false, -1⟩ : PlayerState)).2
      = some ((n : ℤ) - 1) := by
  have hn1 : (1 : ℚ) ≤ (n : ℚ) := by exact_mod_cast hn
  have hadv : advancedIndex (⟨(n : ℚ) - 1, speed, false, -1⟩ : PlayerState)
      = (n : ℚ) - 1 := by
    unfold advancedIndex
    rfl
  have hcast : ((n : ℚ) - 1) = (((n : ℤ) - 1 : ℤ) : ℚ) := by push_cast; ring
  have hp : pyInt ((n : ℚ) - 1) = (n : ℤ) - 1 := by
    unfold pyInt
    rw [if_pos (by linarith)]
    rw [hcast]
    exact Int.floor_intCast _
  have hguard : pyInt (advancedIndex (⟨(n : ℚ) - 1, speed, false, -1⟩ : PlayerState))
        ≠ (-1 : ℤ)
      ∧ 0 ≤ pyInt (advancedIndex (⟨(n : ℚ) - 1, speed, false, -1⟩ : PlayerState))
      ∧ pyInt (advancedIndex (⟨(n : ℚ) - 1, speed, false, -1⟩ : PlayerState)) < (n : ℤ) := by
    rw [hadv, hp]
    refine ⟨by omega, by omega, by omega⟩
  have hnoclamp : ¬ ((n : ℚ) ≤ advancedIndex (⟨(n : ℚ) - 1, speed, false, -1⟩ : PlayerState)) := by
    rw [hadv]
    linarith
  simp only [tickStep]
  rw [show (if (⟨(n : ℚ) - 1, speed, false, -1⟩ : PlayerState).is_playing = true
      then ((n : ℚ) - 1) + speed * (1/60) * 25
      else ((n : ℚ) - 1))
    = advancedIndex (⟨(n : ℚ) - 1, speed, false, -1⟩ : PlayerState) from rfl]
  rw [if_pos hguard, if_neg hnoclamp]
  rw [hadv, hp]

/-- C10 (amended): whatever control messages arrive — fractional, negative,
or past-the-end seek targets included — every frame index the dispatcher
sends lies in `[0, len(frames))`; and provided the playback speed is
nonnegative (the spec admits only positive speeds), a seek at or past the
end sends nothing on its tick, leaves the dispatcher paused at
`len(frames) - 1`, and the following quiet tick sends the final frame. -/
theorem dispatcher_range_safety_claim :
    (∀ (n : Nat) (s : PlayerState) (m : Option ControlMsg) (i : ℤ),
      (loopIter n s m).2 = some i → 0 ≤ i ∧ i < (n : ℤ))
    ∧ (∀ (n : Nat) (s : PlayerState) (f : ℚ),
      1 ≤ n → (n : ℚ) ≤ f → 0 ≤ s.playback_speed →
        (loopIter n s (some (ControlMsg.seek f))).2 = none
        ∧ (loopIter n s (some (ControlMsg.seek f))).1
            = ⟨(n : ℚ) - 1, s.playback_speed, false, -1⟩)
    ∧ (∀ (n : Nat) (s : PlayerState) (f : ℚ),
      1 ≤ n → (n : ℚ) ≤ f → 0 ≤ s.playback_speed →
        (loopIter n ((loopIter n s (some (ControlMsg.seek f))).1) none).2
          = some ((n : ℤ) - 1)) := by
  refine ⟨?_, ?_, ?_⟩
  · intro n s m i h
    obtain ⟨h0, hn, _, _⟩ := tick_sent_bounds n _ i h
    exact ⟨h0, hn⟩
  · intro n s f hn hf hsp
    exact seek_past_end_clamps n s f hn hf hsp
  · intro n s f hn hf hsp
    rw [(seek_past_end_clamps n s f hn hf hsp).2]
    exact final_frame_after_clamp n s.playback_speed hn

/-- C10 witness: a seek to frame 12 over 10 frames from the paused initial
state sends nothing and parks the dispatcher at index 9, paused. -/
theorem dispatcher_range_safety_claim_witness :
    (loopIter 10 PlayerState.start (some (ControlMsg.seek 12))).2 = none
    ∧ (loopIter 10 PlayerState.start (some (ControlMsg.seek 12))).1
        = ⟨(10 : ℚ) - 1, 1, false, -1⟩ :=
  dispatcher_range_safety_claim.2.1 10 PlayerState.start 12
    (by norm_num) (by norm_num) (by norm_num [PlayerState.start])

/-! ## Claim C6: the late-joiner event sequence -/

/-- C6: a client connecting after the session is loaded receives, before any
binary frame, a `loading_progress` carrying 100 or the last recorded
progress value, followed by a `loading_complete` whose metadata carries the
year, round, session_type, total_frames, total_laps, driver_colors,
driver_numbers, driver_teams, track_geometry, track_statuses,
race_start_time and error entries. -/
theorem late_joiner_events_claim :
    ∀ (s : SessionView) (framesSent : List ℤ),
      ((lateJoinerEvents s framesSent).get? 1
        = some (WsEvent.loadingProgress (pyOrNat (some s.progress) 100)
            (pyOrStr s.loading_status "Ready for playback")))
      ∧ (pyOrNat (some s.progress) 100 = 100
          ∨ pyOrNat (some s.progress) 100 = s.progress)
      ∧ ((lateJoinerEvents s framesSent).get? 2
        = some (WsEvent.loadingComplete loadingCompleteMetadataKeys))
      ∧ "year" ∈ loadingCompleteMetadataKeys
      ∧ "round" ∈ loadingCompleteMetadataKeys
      ∧ "session_type" ∈ loadingCompleteMetadataKeys
      ∧ "total_frames" ∈ loadingCompleteMetadataKeys
      ∧ "total_laps" ∈ loadingCompleteMetadataKeys
      ∧ "driver_colors" ∈ loadingCompleteMetadataKeys
      ∧ "driver_numbers" ∈ loadingCompleteMetadataKeys
      ∧ "driver_teams" ∈ loadingCompleteMetadataKeys
      ∧ "track_geometry" ∈ loadingCompleteMetadataKeys
      ∧ "track_statuses" ∈ loadingCompleteMetadataKeys
      ∧ "race_start_time" ∈ loadingCompleteMetadataKeys
      ∧ "error" ∈ loadingCompleteMetadataKeys
      ∧ (∀ (j : Nat) (idx : ℤ),
          (lateJoinerEvents s framesSent).get? j = some (WsEvent.binaryFrame idx) →
            2 < j) := by
  intro s framesSent
  refine ⟨rfl, ?_, rfl, by decide, by decide, by decide, by decide, by decide,
    by decide, by decide, by decide, by decide, by decide, by decide, by decide, ?_⟩
  · simp only [pyOrNat]
    by_cases h : s.progress = 0
    · exact Or.inl (by rw [if_pos h])
    · exact Or.inr (by rw [if_neg h])
  · intro j idx h
    match j with
    | 0 => exact absurd h (by simp [lateJoinerEvents])
    | 1 => exact absurd h (by simp [lateJoinerEvents])
    | 2 => exact absurd h (by simp [lateJoinerEvents])
    | j + 3 => omega

/-- C6 witness: at a concrete just-loaded session with recorded progress 0,
the catch-up `loading_progress` carries 100. -/
theorem late_joiner_events_claim_witness :
    (lateJoinerEvents ⟨0, none⟩ [0, 1]).get? 1
      = some (WsEvent.loadingProgress (pyOrNat (some 0) 100)
          (pyOrStr none "Ready for playback")) :=
  (late_joiner_events_claim ⟨0, none⟩ [0, 1]).1
